import Mathlib

/-!
Verification of `src/devtools/common/metrics/stability/util/grpc_error_util.py`
(google/device-infra): the utility `to_exception_detail` that converts a failed
gRPC call into an `ExceptionDetail` proto by scanning trailing metadata for a
fixed binary key, parsing the matching value as an `RpcErrorPayload`,
zlib-decompressing the embedded blob and parsing the result.

Bytes are modelled as `List Nat`.  The two protobuf schemas
(`RpcErrorPayload`, `ExceptionDetail`) and the zlib stream format are external
to the source file under verification; they are modelled here as concrete
executable codecs that have the documented contracts (serialize/parse
round-trip, parse of the empty string yields the default message, malformed
inputs are rejected, a zlib stream has a header and a trailing checksum and
decompression of a truncated or corrupt stream fails).
-/

namespace GrpcErrorUtil

/-- Byte strings, modelled as lists of naturals. -/
abbrev Bytes := List Nat

/-- Modelled from the spec: `ExceptionDetail` is an externally defined binary
schema describing an application-level exception (type, message, stack
context), opaque to the component under verification.  The schema itself
(`exception.proto`) is repository code not present under `src/`. -/
structure ExceptionDetail where
  exception_type : Bytes
  message : Bytes
  stack_context : Bytes
deriving DecidableEq, Repr, Inhabited

/-- Length-prefixed encoding of one field of a binary record. -/
def encChunk (l : Bytes) : Bytes := l.length :: l

/-- Read back one length-prefixed field; fails on truncated input. -/
def readChunk : Bytes → Option (Bytes × Bytes)
  | [] => none
  | n :: rest => if n ≤ rest.length then some (rest.take n, rest.drop n) else none

/-- Serialization of an `ExceptionDetail` (the protobuf wire encoding is
modelled as the concatenation of the length-prefixed fields). -/
def ExceptionDetail.SerializeToString (d : ExceptionDetail) : Bytes :=
  encChunk d.exception_type ++ (encChunk d.message ++ encChunk d.stack_context)

/-- Parsing of an `ExceptionDetail`; the empty string parses to the default
message (as protobuf parsing does), anything else must consist of exactly the
three length-prefixed fields. -/
def ExceptionDetail.FromString (b : Bytes) : Option ExceptionDetail :=
  if b = [] then some default
  else
    match readChunk b with
    | none => none
    | some (t, r1) =>
      match readChunk r1 with
      | none => none
      | some (m, r2) =>
        match readChunk r2 with
        | none => none
        | some (s, r3) => if r3 = [] then some ⟨t, m, s⟩ else none

/-- Modelled from the spec: the nested message holding the compressed blob
(`rpc_error_payload.proto` is repository code not present under `src/`). -/
structure CompressedExceptionDetail where
  compressed_data : Bytes
deriving DecidableEq, Repr, Inhabited

/-- Modelled from the spec: intermediate nesting level of `RpcErrorPayload`. -/
structure RpcError where
  compressed_exception_detail : CompressedExceptionDetail
deriving DecidableEq, Repr, Inhabited

/-- Modelled from the spec: `RpcErrorPayload` is an externally defined binary
schema wrapping a compressed exception detail, reached through the field path
`rpc_error.compressed_exception_detail.compressed_data`. -/
structure RpcErrorPayload where
  rpc_error : RpcError
deriving DecidableEq, Repr, Inhabited

/-- Serialization of an `RpcErrorPayload`: the single byte-blob field,
length-prefixed. -/
def RpcErrorPayload.SerializeToString (p : RpcErrorPayload) : Bytes :=
  encChunk p.rpc_error.compressed_exception_detail.compressed_data

/-- Parsing of an `RpcErrorPayload`; the empty string parses to the default
message (as protobuf parsing does), anything else must be exactly one
length-prefixed blob, otherwise parsing fails (`DecodeError`). -/
def RpcErrorPayload.FromString : Bytes → Option RpcErrorPayload
  | [] => some default
  | n :: rest => if rest.length = n then some ⟨⟨⟨rest⟩⟩⟩ else none

/-- Python protobuf message objects define no `__bool__` or `__len__`, so a
message object is always truthy; only `None` is falsy in the source's
`if error_info:` test. -/
def RpcErrorPayload.pyBool (_p : RpcErrorPayload) : Bool := true

/-- Adler-style checksum closing a zlib stream (model). -/
def adler (b : Bytes) : Nat := (b.foldl (fun a x => a + x) 1) % 65521

/-- Modelled from the spec: `zlib.compress` produces a standard zlib stream:
a two-byte header, the payload, and a trailing checksum. -/
def zlibCompress (b : Bytes) : Bytes := 120 :: 156 :: (b ++ [adler b])

/-- Modelled from the spec: `zlib.decompress` inverts `zlibCompress` and fails
(`zlib.error`) on anything that is not a complete well-formed stream: a
missing or wrong header, a truncated body, or a corrupt checksum. -/
def zlibDecompress : Bytes → Option Bytes
  | 120 :: 156 :: rest =>
    match rest.getLast? with
    | none => none
    | some c => if adler rest.dropLast = c then some rest.dropLast else none
  | _ => none

/-- One trailing-metadata entry of a gRPC call: a key and a binary value. -/
structure Metadatum where
  key : String
  value : Bytes
deriving DecidableEq, Repr

/-- The input of `to_exception_detail`: `Union[grpc.RpcError, grpc.Call]`.
A plain `grpc.RpcError` that is not a `grpc.Call` exposes no trailing
metadata; a `grpc.Call` exposes its ordered trailing-metadata sequence. -/
inductive GrpcFailure where
  | rpcError (details : String)
  | call (trailing_metadata : List Metadatum)
deriving DecidableEq, Repr

/-- The fixed metadata key `_EXCEPTION_KEY` from the source. -/
def _EXCEPTION_KEY : String := "__crpc_mse_300713958-bin"

/-- The exceptions `to_exception_detail` can let escape: a protobuf
`DecodeError` from `RpcErrorPayload.FromString`, a `zlib.error` from
`zlib.decompress`, and a `DecodeError` from `ExceptionDetail.FromString`. -/
inductive ExtractFailure where
  | payloadDecodeError
  | zlibError
  | detailDecodeError
deriving DecidableEq, Repr

/-- The source's `for metadata in e.trailing_metadata():` loop: each entry
whose key equals `_EXCEPTION_KEY` has its value parsed on the spot by
`RpcErrorPayload.FromString`, overwriting `error_info`; a parse failure
escapes the loop. -/
def scanTrailingMetadata :
    List Metadatum → Option RpcErrorPayload →
    Except ExtractFailure (Option RpcErrorPayload)
  | [], errorInfo => .ok errorInfo
  | m :: rest, errorInfo =>
    if m.key = _EXCEPTION_KEY then
      match RpcErrorPayload.FromString m.value with
      | none => .error .payloadDecodeError
      | some p => scanTrailingMetadata rest (some p)
    else
      scanTrailingMetadata rest errorInfo

/-- The source's `if error_info:` block: when `error_info` is truthy, the
compressed blob is decompressed and parsed as an `ExceptionDetail`; otherwise
the function returns `None`. -/
def decodeErrorInfo :
    Option RpcErrorPayload → Except ExtractFailure (Option ExceptionDetail)
  | some info =>
    if info.pyBool then
      match zlibDecompress info.rpc_error.compressed_exception_detail.compressed_data with
      | none => .error .zlibError
      | some raw =>
        match ExceptionDetail.FromString raw with
        | none => .error .detailDecodeError
        | some d => .ok (some d)
    else .ok none
  | none => .ok none

/-- `to_exception_detail` from
`src/devtools/common/metrics/stability/util/grpc_error_util.py`: for a
`grpc.Call`, scan the trailing metadata for `_EXCEPTION_KEY`, then decode the
retained payload; for anything that is not a `grpc.Call`, return `None`. -/
def to_exception_detail :
    GrpcFailure → Except ExtractFailure (Option ExceptionDetail)
  | .rpcError _ => .ok none
  | .call md =>
    match scanTrailingMetadata md none with
    | .error f => .error f
    | .ok errorInfo => decodeErrorInfo errorInfo

/-- The values of the metadata entries whose key is exactly `_EXCEPTION_KEY`,
in iteration order. -/
def matchingValues (md : List Metadatum) : List Bytes :=
  (md.filter fun m => decide (m.key = _EXCEPTION_KEY)).map Metadatum.value

/-- The scan loop restricted to the matching values (proof helper). -/
def scanValues :
    List Bytes → Option RpcErrorPayload →
    Except ExtractFailure (Option RpcErrorPayload)
  | [], errorInfo => .ok errorInfo
  | v :: rest, _ =>
    match RpcErrorPayload.FromString v with
    | none => .error .payloadDecodeError
    | some p => scanValues rest (some p)

/-- Extraction as a function of the matching values alone (proof helper). -/
def extractFromValues (vs : List Bytes) : Except ExtractFailure (Option ExceptionDetail) :=
  match scanValues vs none with
  | .error f => .error f
  | .ok errorInfo => decodeErrorInfo errorInfo

/-- The metadata value produced by the error-producing side for a detail `d`:
serialize `d`, zlib-compress it, embed it in an `RpcErrorPayload`, serialize
that. -/
def embedValue (d : ExceptionDetail) : Bytes :=
  RpcErrorPayload.SerializeToString ⟨⟨⟨zlibCompress d.SerializeToString⟩⟩⟩

/-- Decidable equality of extraction outcomes. -/
instance decEqExcept {ε α : Type} [DecidableEq ε] [DecidableEq α] : DecidableEq (Except ε α) :=
  fun a b =>
  match a, b with
  | .error x, .error y =>
    if h : x = y then .isTrue (by rw [h]) else .isFalse (by intro c; cases c; exact h rfl)
  | .ok x, .ok y =>
    if h : x = y then .isTrue (by rw [h]) else .isFalse (by intro c; cases c; exact h rfl)
  | .error _, .ok _ => .isFalse (by intro c; cases c)
  | .ok _, .error _ => .isFalse (by intro c; cases c)

/-- Reading a length-prefixed chunk followed by a remainder recovers both. -/
theorem readChunk_encChunk (l r : Bytes) : readChunk (encChunk l ++ r) = some (l, r) := by
  simp [readChunk, encChunk, List.take_append, List.drop_append]

/-- Reading a single length-prefixed chunk recovers it with empty remainder. -/
theorem readChunk_encChunk_nil (l : Bytes) : readChunk (encChunk l) = some (l, []) := by
  simpa using readChunk_encChunk l []

/-- A chunk-led byte string is nonempty. -/
theorem encChunk_append_ne_nil (l r : Bytes) : encChunk l ++ r ≠ [] := by
  simp [encChunk]

/-- Serialize/parse round-trip for `ExceptionDetail`. -/
theorem exceptionDetail_roundtrip (d : ExceptionDetail) :
    ExceptionDetail.FromString d.SerializeToString = some d := by
  obtain ⟨t, m, s⟩ := d
  show ExceptionDetail.FromString (encChunk t ++ (encChunk m ++ encChunk s)) = _
  unfold ExceptionDetail.FromString
  rw [if_neg (encChunk_append_ne_nil _ _)]
  simp [readChunk_encChunk, readChunk_encChunk_nil]

/-- Serialize/parse round-trip for `RpcErrorPayload`. -/
theorem rpcErrorPayload_roundtrip (p : RpcErrorPayload) :
    RpcErrorPayload.FromString p.SerializeToString = some p := by
  obtain ⟨⟨⟨data⟩⟩⟩ := p
  show RpcErrorPayload.FromString (data.length :: data) = _
  simp [RpcErrorPayload.FromString]

/-- Compress/decompress round-trip for the modelled zlib stream. -/
theorem zlib_roundtrip (b : Bytes) : zlibDecompress (zlibCompress b) = some b := by
  simp [zlibCompress, zlibDecompress, List.getLast?_concat, List.dropLast_concat]

/-- The metadata scan depends only on the values under the fixed key. -/
theorem scan_eq_scanValues (md : List Metadatum) (acc : Option RpcErrorPayload) :
    scanTrailingMetadata md acc = scanValues (matchingValues md) acc := by
  induction md generalizing acc with
  | nil => rfl
  | cons m rest ih =>
    by_cases h : m.key = _EXCEPTION_KEY
    · rw [show matchingValues (m :: rest) = m.value :: matchingValues rest by
        simp [matchingValues, h]]
      simp only [scanTrailingMetadata, scanValues, if_pos h]
      cases hp : RpcErrorPayload.FromString m.value with
      | none => rfl
      | some p => exact ih (some p)
    · rw [show matchingValues (m :: rest) = matchingValues rest by simp [matchingValues, h]]
      simp only [scanTrailingMetadata, if_neg h]
      exact ih acc

/-- Extraction on a call is a function of the matching values alone. -/
theorem extract_call_eq (md : List Metadatum) :
    to_exception_detail (.call md) = extractFromValues (matchingValues md) := by
  simp only [to_exception_detail, extractFromValues, scan_eq_scanValues]

/-- If some scanned value is malformed, the scan raises the decode error. -/
theorem scanValues_err (vs : List Bytes) (acc : Option RpcErrorPayload)
    (h : ∃ v ∈ vs, RpcErrorPayload.FromString v = none) :
    scanValues vs acc = .error .payloadDecodeError := by
  induction vs generalizing acc with
  | nil => simp at h
  | cons v rest ih =>
    cases hp : RpcErrorPayload.FromString v with
    | none => simp [scanValues, hp]
    | some p =>
      simp only [scanValues, hp]
      apply ih
      obtain ⟨w, hw, hnone⟩ := h
      rcases List.mem_cons.mp hw with rfl | hmem
      · rw [hp] at hnone; cases hnone
      · exact ⟨w, hmem, hnone⟩

/-- If every scanned value parses, the scan succeeds and retains the parse of
the last value (or the initial accumulator when there is none). -/
theorem scanValues_ok_last (vs : List Bytes) (acc : Option RpcErrorPayload)
    (h : ∀ v ∈ vs, (RpcErrorPayload.FromString v).isSome = true) :
    scanValues vs acc =
      .ok (match vs.getLast? with
           | none => acc
           | some v => RpcErrorPayload.FromString v) := by
  induction vs generalizing acc with
  | nil => rfl
  | cons v rest ih =>
    obtain ⟨p, hp⟩ := Option.isSome_iff_exists.mp (h v (List.mem_cons_self v rest))
    cases rest with
    | nil => simp [scanValues, hp]
    | cons w ws =>
      simp only [scanValues, hp]
      rw [List.getLast?_cons_cons]
      exact ih (some p) fun u hu => h u (List.mem_cons_of_mem v hu)

/-- If every scanned value parses, the scan retains the parse of the last. -/
theorem scanValues_ok_getLast (vs : List Bytes) (acc : Option RpcErrorPayload) (v : Bytes)
    (hlast : vs.getLast? = some v)
    (h : ∀ u ∈ vs, (RpcErrorPayload.FromString u).isSome = true) :
    scanValues vs acc = .ok (RpcErrorPayload.FromString v) := by
  rw [scanValues_ok_last vs acc h, hlast]

/-- When every matching value parses, extraction is the decode of the parse of
the last matching value. -/
theorem extract_last (md : List Metadatum) (v : Bytes)
    (hall : ∀ u ∈ matchingValues md, (RpcErrorPayload.FromString u).isSome = true)
    (hlast : (matchingValues md).getLast? = some v) :
    to_exception_detail (.call md) = decodeErrorInfo (RpcErrorPayload.FromString v) := by
  rw [extract_call_eq]
  simp only [extractFromValues]
  rw [scanValues_ok_getLast _ none v hlast hall]

/-- The last element reported by `getLast?` is a member of the list. -/
theorem getLast?_mem_self {α : Type} {l : List α} {a : α} (h : l.getLast? = some a) :
    a ∈ l := by
  obtain ⟨hc, rfl⟩ := List.mem_getLast?_eq_getLast (Option.mem_def.mpr h)
  exact List.getLast_mem hc

/-- C1: for every failed call whose trailing metadata contains exactly one
entry under the fixed key, holding the serialization of an RpcErrorPayload
whose compressed blob is the zlib compression of a serialized ExceptionDetail
d, extraction returns exactly d: encode, compress, embed, extract is a
round-trip identity. -/
theorem c1_roundtrip_extract (md : List Metadatum) (d : ExceptionDetail)
    (h : md.filter (fun m => decide (m.key = _EXCEPTION_KEY)) =
      [⟨_EXCEPTION_KEY, embedValue d⟩]) :
    to_exception_detail (.call md) = .ok (some d) := by
  have hmv : matchingValues md = [embedValue d] := by simp [matchingValues, h]
  rw [extract_call_eq, hmv]
  simp only [extractFromValues, scanValues, embedValue, rpcErrorPayload_roundtrip]
  simp [decodeErrorInfo, RpcErrorPayload.pyBool, zlib_roundtrip,
    exceptionDetail_roundtrip]

/-- C1 witness: the round-trip theorem applied to a concrete detail attached
as the only entry of a concrete call. -/
theorem c1_witness :
    ([⟨_EXCEPTION_KEY, embedValue ⟨[1], [2], [3]⟩⟩] : List Metadatum).filter
        (fun m => decide (m.key = _EXCEPTION_KEY)) =
      [⟨_EXCEPTION_KEY, embedValue ⟨[1], [2], [3]⟩⟩] ∧
    to_exception_detail (.call [⟨_EXCEPTION_KEY, embedValue ⟨[1], [2], [3]⟩⟩]) =
      .ok (some ⟨[1], [2], [3]⟩) :=
  ⟨by decide, c1_roundtrip_extract _ _ (by decide)⟩

/-- C2: an input that is not a grpc.Call, hence without the trailing-metadata
capability, yields None rather than an error. -/
theorem c2_no_metadata_capability (s : String) :
    to_exception_detail (.rpcError s) = .ok none := rfl

/-- C2 witness: the theorem applied to a concrete plain RpcError. -/
theorem c2_witness :
    to_exception_detail (.rpcError "UNAVAILABLE") = .ok none :=
  c2_no_metadata_capability "UNAVAILABLE"

/-- C3: a failed call whose trailing metadata has no entry with key exactly
equal to the fixed key yields None. -/
theorem c3_no_matching_key (md : List Metadatum)
    (h : ∀ m ∈ md, m.key ≠ _EXCEPTION_KEY) :
    to_exception_detail (.call md) = .ok none := by
  have hf : md.filter (fun m => decide (m.key = _EXCEPTION_KEY)) = [] :=
    List.filter_eq_nil_iff.mpr fun a ha => by simpa using h a ha
  have hmv : matchingValues md = [] := by simp [matchingValues, hf]
  rw [extract_call_eq, hmv]
  rfl

/-- C3 witness: the theorem applied to a call carrying only near-miss keys. -/
theorem c3_witness :
    (∀ m ∈ ([⟨"__crpc_mse_300713958-BIN", [1, 2]⟩, ⟨"x__crpc_mse_300713958-bin", [3]⟩] :
        List Metadatum), m.key ≠ _EXCEPTION_KEY) ∧
    to_exception_detail (.call
        [⟨"__crpc_mse_300713958-BIN", [1, 2]⟩, ⟨"x__crpc_mse_300713958-bin", [3]⟩]) =
      .ok none :=
  ⟨by decide, c3_no_matching_key _ (by decide)⟩

/-- C4 counterexample: with two entries under the fixed key whose first value
is malformed, extraction raises the payload decode failure instead of
returning the decode of the last entry, so an earlier matching entry does
determine the result. -/
theorem c4_counterexample :
    to_exception_detail
        (.call [⟨_EXCEPTION_KEY, [5]⟩, ⟨_EXCEPTION_KEY, embedValue ⟨[4], [], []⟩⟩]) =
      .error .payloadDecodeError ∧
    to_exception_detail
        (.call [⟨_EXCEPTION_KEY, [5]⟩, ⟨_EXCEPTION_KEY, embedValue ⟨[4], [], []⟩⟩]) ≠
      .ok (some ⟨[4], [], []⟩) :=
  ⟨rfl, by decide⟩

/-- C4 (amended): when every matching value parses as an RpcErrorPayload and
at least two entries carry the fixed key, extraction equals extraction over a
single-entry metadata holding just the last matching value: earlier
successfully parsed entries are overwritten and do not determine the
result. -/
theorem c4_last_wins (md : List Metadatum) (v : Bytes)
    (hall : ∀ u ∈ matchingValues md, (RpcErrorPayload.FromString u).isSome = true)
    (hlen : 2 ≤ (matchingValues md).length)
    (hlast : (matchingValues md).getLast? = some v) :
    to_exception_detail (.call md) =
      to_exception_detail (.call [⟨_EXCEPTION_KEY, v⟩]) := by
  have hv := hall v (getLast?_mem_self hlast)
  rw [extract_last md v hall hlast]
  rw [extract_last [⟨_EXCEPTION_KEY, v⟩] v
    (by
      intro u hu
      have huv : u = v := by simpa [matchingValues] using hu
      rw [huv]; exact hv)
    (by simp [matchingValues])]

/-- C4 witness: the amended theorem applied to a call carrying two valid
entries under the fixed key. -/
theorem c4_witness :
    (∀ u ∈ matchingValues
        [⟨_EXCEPTION_KEY, embedValue ⟨[1], [], []⟩⟩, ⟨_EXCEPTION_KEY, embedValue ⟨[2], [], []⟩⟩],
      (RpcErrorPayload.FromString u).isSome = true) ∧
    2 ≤ (matchingValues
        [⟨_EXCEPTION_KEY, embedValue ⟨[1], [], []⟩⟩, ⟨_EXCEPTION_KEY, embedValue ⟨[2], [], []⟩⟩]).length ∧
    (matchingValues
        [⟨_EXCEPTION_KEY, embedValue ⟨[1], [], []⟩⟩, ⟨_EXCEPTION_KEY, embedValue ⟨[2], [], []⟩⟩]).getLast? =
      some (embedValue ⟨[2], [], []⟩) ∧
    to_exception_detail
        (.call [⟨_EXCEPTION_KEY, embedValue ⟨[1], [], []⟩⟩, ⟨_EXCEPTION_KEY, embedValue ⟨[2], [], []⟩⟩]) =
      to_exception_detail (.call [⟨_EXCEPTION_KEY, embedValue ⟨[2], [], []⟩⟩]) :=
  ⟨by decide, by decide, by decide, c4_last_wins _ _ (by decide) (by decide) (by decide)⟩

/-- C5 counterexample: a malformed value under an earlier duplicate of the
fixed key followed by a well-formed last duplicate yields a parse failure,
not the decode of the last entry: the value is parsed inside the scan loop at
every matching entry, not once afterwards on the retained bytes. -/
theorem c5_counterexample :
    to_exception_detail
        (.call [⟨_EXCEPTION_KEY, [7, 7]⟩, ⟨_EXCEPTION_KEY, embedValue ⟨[], [9], []⟩⟩]) =
      .error .payloadDecodeError ∧
    to_exception_detail
        (.call [⟨_EXCEPTION_KEY, [7, 7]⟩, ⟨_EXCEPTION_KEY, embedValue ⟨[], [9], []⟩⟩]) ≠
      .ok (some ⟨[], [9], []⟩) :=
  ⟨rfl, by decide⟩

/-- C5 (amended): every matching entry's value is parsed as an RpcErrorPayload
when the scan encounters it: if the matching values split as vs, then a
malformed v, then anything, with all of vs parsing, extraction raises the
payload decode failure even when later duplicates are well-formed; only when
every matching value parses does the last one alone determine the result. -/
theorem c5_parse_in_loop (md : List Metadatum) (vs : List Bytes) (v : Bytes) (ws : List Bytes)
    (hsplit : matchingValues md = vs ++ v :: ws)
    (hvs : ∀ u ∈ vs, (RpcErrorPayload.FromString u).isSome = true)
    (hv : RpcErrorPayload.FromString v = none) :
    to_exception_detail (.call md) = .error .payloadDecodeError := by
  rw [extract_call_eq, hsplit]
  simp only [extractFromValues]
  rw [scanValues_err (vs ++ v :: ws) none ⟨v, by simp, hv⟩]

/-- C5 witness: the amended theorem applied to a call with a well-formed
duplicate, then a malformed duplicate, then another well-formed duplicate. -/
theorem c5_witness :
    matchingValues
        [⟨_EXCEPTION_KEY, embedValue ⟨[], [], []⟩⟩, ⟨_EXCEPTION_KEY, [3]⟩,
         ⟨_EXCEPTION_KEY, embedValue ⟨[5], [], []⟩⟩] =
      [embedValue ⟨[], [], []⟩] ++ [3] :: [embedValue ⟨[5], [], []⟩] ∧
    (∀ u ∈ [embedValue ⟨[], [], []⟩], (RpcErrorPayload.FromString u).isSome = true) ∧
    RpcErrorPayload.FromString [3] = none ∧
    to_exception_detail
        (.call [⟨_EXCEPTION_KEY, embedValue ⟨[], [], []⟩⟩, ⟨_EXCEPTION_KEY, [3]⟩,
          ⟨_EXCEPTION_KEY, embedValue ⟨[5], [], []⟩⟩]) =
      .error .payloadDecodeError :=
  ⟨by decide, by decide, by decide,
   c5_parse_in_loop
     [⟨_EXCEPTION_KEY, embedValue ⟨[], [], []⟩⟩, ⟨_EXCEPTION_KEY, [3]⟩,
      ⟨_EXCEPTION_KEY, embedValue ⟨[5], [], []⟩⟩]
     [embedValue ⟨[], [], []⟩] [3] [embedValue ⟨[5], [], []⟩]
     (by decide) (by decide) (by decide)⟩

/-- C6: a failed call with a matching metadata entry whose value does not
parse as an RpcErrorPayload makes extraction propagate the decode failure to
the caller instead of returning None. -/
theorem c6_malformed_payload (md : List Metadatum)
    (h : ∃ m ∈ md, m.key = _EXCEPTION_KEY ∧ RpcErrorPayload.FromString m.value = none) :
    to_exception_detail (.call md) = .error .payloadDecodeError := by
  obtain ⟨m, hm, hkey, hval⟩ := h
  have hmem : m.value ∈ matchingValues md := by
    unfold matchingValues
    exact List.mem_map_of_mem _ (List.mem_filter.mpr ⟨hm, by simp [hkey]⟩)
  rw [extract_call_eq]
  simp only [extractFromValues]
  rw [scanValues_err _ none ⟨m.value, hmem, hval⟩]

/-- C6 witness: the theorem applied to a call whose matching entry holds
bytes that are not a valid payload encoding. -/
theorem c6_witness :
    (∃ m ∈ ([⟨_EXCEPTION_KEY, [9]⟩] : List Metadatum),
      m.key = _EXCEPTION_KEY ∧ RpcErrorPayload.FromString m.value = none) ∧
    to_exception_detail (.call [⟨_EXCEPTION_KEY, [9]⟩]) = .error .payloadDecodeError :=
  ⟨by decide, c6_malformed_payload _ (by decide)⟩

/-- C7: when the retained matching entry parses as a valid RpcErrorPayload
but its embedded compressed blob is not a valid zlib stream, extraction
propagates the decompression failure to the caller instead of returning
None. -/
theorem c7_decompression_failure (md : List Metadatum) (v : Bytes) (p : RpcErrorPayload)
    (hall : ∀ u ∈ matchingValues md, (RpcErrorPayload.FromString u).isSome = true)
    (hlast : (matchingValues md).getLast? = some v)
    (hp : RpcErrorPayload.FromString v = some p)
    (hz : zlibDecompress p.rpc_error.compressed_exception_detail.compressed_data = none) :
    to_exception_detail (.call md) = .error .zlibError := by
  rw [extract_last md v hall hlast, hp]
  simp [decodeErrorInfo, RpcErrorPayload.pyBool, hz]

/-- C7 witness: the theorem applied to a call whose matching entry embeds a
blob with no zlib header. -/
theorem c7_witness :
    (∀ u ∈ matchingValues [⟨_EXCEPTION_KEY, [3, 1, 2, 3]⟩],
      (RpcErrorPayload.FromString u).isSome = true) ∧
    (matchingValues [⟨_EXCEPTION_KEY, [3, 1, 2, 3]⟩]).getLast? = some [3, 1, 2, 3] ∧
    RpcErrorPayload.FromString [3, 1, 2, 3] = some ⟨⟨⟨[1, 2, 3]⟩⟩⟩ ∧
    zlibDecompress
        ((⟨⟨⟨[1, 2, 3]⟩⟩⟩ : RpcErrorPayload)).rpc_error.compressed_exception_detail.compressed_data =
      none ∧
    to_exception_detail (.call [⟨_EXCEPTION_KEY, [3, 1, 2, 3]⟩]) = .error .zlibError :=
  ⟨by decide, by decide, by decide, by decide,
   c7_decompression_failure [⟨_EXCEPTION_KEY, [3, 1, 2, 3]⟩] [3, 1, 2, 3] ⟨⟨⟨[1, 2, 3]⟩⟩⟩
     (by decide) (by decide) (by decide) (by decide)⟩

/-- C8: extraction is a pure function of its input: two invocations on equal
inputs (same capability, same ordered key/value entries) produce equal
results or the same failure condition. -/
theorem c8_deterministic (e₁ e₂ : GrpcFailure) (h : e₁ = e₂) :
    to_exception_detail e₁ = to_exception_detail e₂ := by rw [h]

/-- C8 witness: determinism at a concrete failed call. -/
theorem c8_witness :
    (GrpcFailure.call [⟨_EXCEPTION_KEY, [9]⟩, ⟨"other", [1]⟩] =
      GrpcFailure.call [⟨_EXCEPTION_KEY, [9]⟩, ⟨"other", [1]⟩]) ∧
    to_exception_detail (.call [⟨_EXCEPTION_KEY, [9]⟩, ⟨"other", [1]⟩]) =
      to_exception_detail (.call [⟨_EXCEPTION_KEY, [9]⟩, ⟨"other", [1]⟩]) :=
  ⟨rfl, c8_deterministic _ _ rfl⟩

/-- C9: key matching is exact and byte-for-byte: entries whose key differs in
any way from the fixed constant never contribute to the result, so removing
every non-matching entry leaves extraction unchanged. -/
theorem c9_exact_key_match (md : List Metadatum) :
    to_exception_detail (.call md) =
      to_exception_detail
        (.call (md.filter fun m => decide (m.key = _EXCEPTION_KEY))) := by
  rw [extract_call_eq, extract_call_eq]
  unfold matchingValues
  rw [List.filter_filter]
  simp

/-- C9 witness: the theorem applied to a call mixing a matching entry with
case-changed, prefixed and suffixed variants of the key. -/
theorem c9_witness :
    to_exception_detail
        (.call [⟨"__CRPC_MSE_300713958-bin", [1]⟩, ⟨_EXCEPTION_KEY, [9]⟩,
          ⟨"__crpc_mse_300713958-binx", [2]⟩]) =
      to_exception_detail
        (.call (([⟨"__CRPC_MSE_300713958-bin", [1]⟩, ⟨_EXCEPTION_KEY, [9]⟩,
          ⟨"__crpc_mse_300713958-binx", [2]⟩] : List Metadatum).filter
            fun m => decide (m.key = _EXCEPTION_KEY))) :=
  c9_exact_key_match
    [⟨"__CRPC_MSE_300713958-bin", [1]⟩, ⟨_EXCEPTION_KEY, [9]⟩,
     ⟨"__crpc_mse_300713958-binx", [2]⟩]

/-- C10 counterexample: a single matching entry holding the empty byte string
parses to the default RpcErrorPayload, which as a message object is truthy,
so extraction attempts decompression of the empty blob and propagates a
decompression failure rather than returning None. -/
theorem c10_counterexample :
    to_exception_detail (.call [⟨_EXCEPTION_KEY, ([] : Bytes)⟩]) = .error .zlibError ∧
    to_exception_detail (.call [⟨_EXCEPTION_KEY, ([] : Bytes)⟩]) ≠ .ok none :=
  ⟨rfl, by decide⟩

/-- C10 (amended): when every matching value parses and the last matching
value is the empty byte string, that value parses to the default
RpcErrorPayload; since Python protobuf messages are truthy regardless of
content, extraction proceeds and propagates a decompression failure on the
empty compressed data instead of returning None. -/
theorem c10_empty_payload (md : List Metadatum)
    (hall : ∀ u ∈ matchingValues md, (RpcErrorPayload.FromString u).isSome = true)
    (hlast : (matchingValues md).getLast? = some ([] : Bytes)) :
    to_exception_detail (.call md) = .error .zlibError := by
  rw [extract_last md [] hall hlast]
  rfl

/-- C10 witness: the amended theorem applied to a call whose only matching
entry holds the empty byte string. -/
theorem c10_witness :
    (∀ u ∈ matchingValues [⟨_EXCEPTION_KEY, ([] : Bytes)⟩],
      (RpcErrorPayload.FromString u).isSome = true) ∧
    (matchingValues [⟨_EXCEPTION_KEY, ([] : Bytes)⟩]).getLast? = some ([] : Bytes) ∧
    to_exception_detail (.call [⟨_EXCEPTION_KEY, ([] : Bytes)⟩]) = .error .zlibError :=
  ⟨by decide, by decide,
   c10_empty_payload [⟨_EXCEPTION_KEY, ([] : Bytes)⟩] (by decide) (by decide)⟩

end GrpcErrorUtil
